import Mathlib

/-!
Shallow embedding of `main.py` from the `rgb_emotions` repository: the MQTT
message callback (channel-state update, event-window append and prune), the
LED render function, and one iteration of the main loop.

Modelling conventions:
* Python dicts with string keys and integer values become association lists.
* The `ucollections.deque` of timestamps becomes a `List Nat`, oldest first.
  A `deque((), 60)` without the overflow flag silently discards the item at
  the opposite end when full, and `popleft()` on an empty deque raises
  `IndexError`.
* `utime.ticks_ms()` returns a wrapped millisecond tick value; its successive
  calls inside one callback invocation are modelled as a single instant `now`
  passed as a parameter.
* A Python exception is modelled as an error value returned next to the
  post-state; mutations performed before the raise are retained, as in Python.
-/

namespace RgbEmotions

/-- Number of LEDs on the strip (main.py line 13). -/
def number_of_leds : Nat := 90

/-- Topic base that inbound topics must start with (main.py line 19). -/
def mqtt_topic_base : String := "dinky/"

/-- The known channel set (main.py lines 21-23). -/
def channels : List String := ["motion"]

/-- Capacity of the `motiontimes` deque (main.py line 29: `deque((),60)`). -/
def windowCapacity : Nat := 60

/-- Retention window in milliseconds (main.py line 64). -/
def windowMs : Int := 60000

/-- Python exceptions that the modelled code can raise. -/
inductive PyError where
  | valueError
  | indexError
  | keyError
deriving DecidableEq

/-- Python `msg.strip()`: remove whitespace from both ends of the string. -/
def pyStrip (s : String) : String :=
  String.mk (((s.data.dropWhile Char.isWhitespace).reverse.dropWhile Char.isWhitespace).reverse)

/-- Python `t.startswith(p)` on strings, via the character lists. -/
def topicStartsWith (t p : String) : Bool :=
  p.data.isPrefixOf t.data

/-- Python slicing `t[n:]` on a string, via the character list. -/
def topicDrop (t : String) (n : Nat) : String :=
  String.mk (t.data.drop n)

/-- Digits of a decimal literal folded into a natural number. -/
def digitsToNat (l : List Char) : Nat :=
  l.foldl (fun a c => a * 10 + (c.toNat - 48)) 0

/-- Parse a nonempty all-digit character list, else `none`. -/
def parseDigits? (l : List Char) : Option Nat :=
  if l ≠ [] ∧ l.all (fun c => c.isDigit) then some (digitsToNat l) else none

/-- Python `int(s)` on an already-stripped string: an optional sign followed by
one or more decimal digits; anything else raises `ValueError` (`none` here). -/
def pyInt? (s : String) : Option Int :=
  match s.data with
  | '-' :: rest => (parseDigits? rest).map (fun n => -(n : Int))
  | '+' :: rest => (parseDigits? rest).map (fun n => (n : Int))
  | l => (parseDigits? l).map (fun n => (n : Int))

/-- Python dict assignment `d[k] = v` on an association list: overwrite the
first binding of `k`, or append a new binding. -/
def dictSet (d : List (String × Int)) (k : String) (v : Int) : List (String × Int) :=
  match d with
  | [] => [(k, v)]
  | (k₀, v₀) :: rest => if k₀ = k then (k, v) :: rest else (k₀, v₀) :: dictSet rest k v

/-- Python dict lookup `d[k]` on an association list; `none` models `KeyError`. -/
def dictGet (d : List (String × Int)) (k : String) : Option Int :=
  match d with
  | [] => none
  | (k₀, v₀) :: rest => if k₀ = k then some v₀ else dictGet rest k

/-- A pixel value as assigned in the source: the 4-tuple `(r, g, b, w)`
written by `np[x] = (...)`. (The device is constructed with `bpp=3`, so the
driver drops the fourth byte; that truncation is inside the `neopixel`
library, outside this core.) -/
structure Pixel where
  r : Nat
  g : Nat
  b : Nat
  w : Nat
deriving DecidableEq

/-- The NeoPixel device: the pixel buffer and the log of committed buffers
(one entry appended per `np.write()` call). -/
structure NeoPixel where
  buf : List Pixel
  written : List (List Pixel)
deriving DecidableEq

/-- The mutable program state touched by the core: the channel state dict
(main.py lines 25-27), the `motiontimes` deque (line 29), and the NeoPixel
device. -/
structure PState where
  state : List (String × Int)
  motiontimes : List Nat
  np : NeoPixel
deriving DecidableEq

/-- Initial channel state dict: `{"motion": 0}` (main.py lines 25-27). -/
def state0 : List (String × Int) := [("motion", 0)]

/-- The NeoPixel device as the main loop is entered: 90 pixels, commit log
restarted at loop entry (startup indicator fills are out of core scope). -/
def np0 : NeoPixel :=
  { buf := List.replicate number_of_leds ⟨0, 0, 0, 0⟩, written := [] }

/-- Initial program state at main-loop entry. -/
def pstate0 : PState := { state := state0, motiontimes := [], np := np0 }

/-- Append to the `motiontimes` deque (main.py line 58): a full
`deque((), 60)` without the overflow flag silently discards the oldest item. -/
def dequeAppend (w : List Nat) (t : Nat) : List Nat :=
  if windowCapacity ≤ w.length then w.tail ++ [t] else w ++ [t]

/-- The prune loop of main.py lines 61-66: repeatedly `popleft` the head
entry; if `ticks_ms() - entry < 60000` push it back and stop. `none` models
the `IndexError` that the unguarded `popleft` raises on an empty deque (at
that point every entry has been popped, so the deque is empty). The age is
the literal Python subtraction `now - entry` on the tick values. -/
def pruneLoop (now : Nat) : List Nat → Option (List Nat)
  | [] => none
  | t :: rest =>
      if (now : Int) - (t : Int) < windowMs then some (t :: rest)
      else pruneLoop now rest

/-- One record-then-prune pair on the window (main.py lines 57-66): append
the current tick, then run the prune loop. -/
def recordPrune (now : Nat) (w : List Nat) : Option (List Nat) :=
  pruneLoop now (dequeAppend w now)

/-- A sequence of record-then-prune pairs, stopping at the first error. -/
def recordAll (times : List Nat) (w : List Nat) : Option (List Nat) :=
  times.foldlM (fun w t => recordPrune t w) w

/-- The MQTT message callback (main.py lines 40-66) on decoded strings.
Returns the post-state together with the raised exception, if any. Order of
operations follows the source: strip the payload, check the topic starts with
the base, parse the payload (the diagnostic `print` on line 51 calls
`int(msg)` before the channel-membership check), then if the channel is known
update the state dict, append the tick to `motiontimes`, and prune. -/
def mqtt_message_callback (topic msg : String) (now : Nat) (s : PState) :
    PState × Option PyError :=
  let msg := pyStrip msg
  if topicStartsWith topic mqtt_topic_base then
    let channel := topicDrop topic mqtt_topic_base.length
    match pyInt? msg with
    | none => (s, some .valueError)
    | some v =>
        if channel ∈ channels then
          let s := { s with state := dictSet s.state channel v }
          match pruneLoop now (dequeAppend s.motiontimes now) with
          | none => ({ s with motiontimes := [] }, some .indexError)
          | some w => ({ s with motiontimes := w }, none)
        else (s, none)
  else (s, none)

/-- Dispatch a list of `(topic, payload, now)` messages in order, stopping at
the first raised exception (an uncaught exception ends the main loop). -/
def dispatchAll (msgs : List (String × String × Nat)) (s : PState) :
    PState × Option PyError :=
  match msgs with
  | [] => (s, none)
  | m :: rest =>
      match mqtt_message_callback m.1 m.2.1 m.2.2 s with
      | (s₁, none) => dispatchAll rest s₁
      | (s₁, some e) => (s₁, some e)

/-- The pixel written for a motion value (main.py lines 73-76): red
`(255,0,0,0)` when the value is 1, else green `(0,255,0,0)`. -/
def pixelFor (m : Int) : Pixel :=
  if m = 1 then ⟨255, 0, 0, 0⟩ else ⟨0, 255, 0, 0⟩

/-- The render function `update_leds` (main.py lines 69-78): for each
`x in range(0, number_of_leds)` set `np[x]` from `state["motion"]`, then
call `np.write()` once. `none` models the `KeyError` if the `"motion"` key
were absent (it is present in every reachable state). -/
def update_leds (state : List (String × Int)) (np : NeoPixel) : Option NeoPixel :=
  match dictGet state "motion" with
  | none => none
  | some m =>
      let buf := (List.range number_of_leds).foldl (fun b x => b.set x (pixelFor m)) np.buf
      some { buf := buf, written := np.written ++ [buf] }

/-- One iteration of the main loop (main.py lines 157-160): `check_msg`
delivers at most one pending message to the callback (`umqtt.robust`
re-raises callback exceptions other than `OSError`, and the loop body has no
handler, so a callback exception aborts the loop), then `update_leds` runs. -/
def mainLoopIter (pending : Option (String × String × Nat)) (s : PState) :
    PState × Option PyError :=
  let r := match pending with
    | some (t, m, now) => mqtt_message_callback t m now s
    | none => (s, none)
  match r with
  | (s₁, some e) => (s₁, some e)
  | (s₁, none) =>
      match update_leds s₁.state s₁.np with
      | none => (s₁, some .keyError)
      | some np₁ => ({ s₁ with np := np₁ }, none)

/-- Modelled from the spec: the platform monotonic-clock difference that is
correct under wraparound ("wrapping/modular arithmetic matching the platform
monotonic clock semantics"). This is MicroPython `utime.ticks_diff(a, b)`
with the standard tick period of 2^30; `utime` is a platform built-in, not
part of this repository. -/
def ticksPeriod : Int := 2 ^ 30

/-- Modelled from the spec: signed wrapped difference of two tick values,
in the interval `[-ticksPeriod/2, ticksPeriod/2)`. -/
def ticks_diff (a b : Nat) : Int :=
  ((a : Int) - (b : Int) + ticksPeriod / 2) % ticksPeriod - ticksPeriod / 2

/-- Freshness of an entry as the source decides it: literal subtraction of
the tick values compared against the 60000 ms window. -/
def isFresh (now t : Nat) : Bool :=
  decide ((now : Int) - (t : Int) < windowMs)

/-- A message triple whose topic is prefix-matching with a known channel and
whose payload parses as an integer. -/
def validKnown (msg : String × String × Nat) : Prop :=
  topicStartsWith msg.1 mqtt_topic_base = true ∧
    topicDrop msg.1 mqtt_topic_base.length ∈ channels ∧
    (pyInt? (pyStrip msg.2.1)).isSome = true

instance : DecidablePred validKnown := fun m => by
  unfold validKnown; infer_instance

/-! ### Helper lemmas -/

/-- Setting `d[k] = v` then looking up `k` yields `v`. -/
lemma dictGet_dictSet_self (d : List (String × Int)) (k : String) (v : Int) :
    dictGet (dictSet d k v) k = some v := by
  induction d with
  | nil => simp [dictSet, dictGet]
  | cons kv rest ih =>
      obtain ⟨k₀, v₀⟩ := kv
      by_cases h : k₀ = k
      · simp [dictSet, dictGet, h]
      · simp [dictSet, dictGet, h, ih]

/-- Folding index-wise `set` over `range n` fills the first `n` positions. -/
lemma foldl_set_range (p : Pixel) :
    ∀ (n : Nat) (l : List Pixel),
      (List.range n).foldl (fun b x => b.set x p) l =
        List.replicate (min n l.length) p ++ l.drop n := by
  intro n
  induction n with
  | zero => intro l; simp
  | succ n ih =>
      intro l
      rw [List.range_succ, List.foldl_append]
      simp only [List.foldl_cons, List.foldl_nil]
      rw [ih l]
      by_cases h : n < l.length
      · have hmin : min n l.length = n := by omega
        have hmin2 : min (n + 1) l.length = n + 1 := by omega
        rw [hmin, hmin2,
          List.set_append_right _ _ (by simp),
          List.length_replicate, Nat.sub_self,
          List.drop_eq_getElem_cons h, List.set_cons_zero,
          List.replicate_succ' n p, List.append_assoc]
        rfl
      · have hlen : l.length ≤ n := by omega
        have hmin : min n l.length = l.length := by omega
        have hmin2 : min (n + 1) l.length = l.length := by omega
        rw [hmin, hmin2, List.drop_eq_nil_of_le hlen,
          List.drop_eq_nil_of_le (by omega)]
        rw [List.set_eq_of_length_le (by simp [hlen])]

/-- The deque append always produces some list with the new element last. -/
lemma dequeAppend_shape (w : List Nat) (t : Nat) :
    ∃ l, dequeAppend w t = l ++ [t] := by
  unfold dequeAppend
  by_cases h : windowCapacity ≤ w.length
  · exact ⟨w.tail, by rw [if_pos h]⟩
  · exact ⟨w, by rw [if_neg h]⟩

/-- When the final element of the list is fresh, the prune loop never reaches
the empty deque and returns a nonempty window. -/
lemma pruneLoop_append_some :
    ∀ (l : List Nat) (now e : Nat), (now : Int) - (e : Int) < windowMs →
      ∃ r, pruneLoop now (l ++ [e]) = some r ∧ r ≠ [] := by
  intro l
  induction l with
  | nil =>
      intro now e h
      exact ⟨[e], by simp [pruneLoop, h], by simp⟩
  | cons t rest ih =>
      intro now e h
      by_cases hh : (now : Int) - (t : Int) < windowMs
      · exact ⟨t :: (rest ++ [e]), by simp [pruneLoop, hh], by simp⟩
      · obtain ⟨r, hr, hne⟩ := ih now e h
        exact ⟨r, by simpa [pruneLoop, hh] using hr, hne⟩

/-- On a chronologically ordered list, every entry surviving the prune loop
is fresh. -/
lemma pruneLoop_fresh_of_sorted :
    ∀ (l : List Nat) (now : Nat), l.Pairwise (· ≤ ·) →
      ∀ r, pruneLoop now l = some r →
        ∀ t ∈ r, (now : Int) - (t : Int) < windowMs := by
  intro l
  induction l with
  | nil => intro now _ r hr; simp [pruneLoop] at hr
  | cons h rest ih =>
      intro now hp r hr t htr
      by_cases hh : (now : Int) - (h : Int) < windowMs
      · simp only [pruneLoop, if_pos hh, Option.some.injEq] at hr
        subst hr
        rcases List.mem_cons.mp htr with hth | htrest
        · subst hth; exact hh
        · have h1 : h ≤ t := (List.pairwise_cons.mp hp).1 t htrest
          have h2 : (h : Int) ≤ (t : Int) := by exact_mod_cast h1
          omega
      · simp only [pruneLoop, if_neg hh] at hr
        exact ih now (List.pairwise_cons.mp hp).2 r hr t htr

/-- On a chronologically ordered list, the prune loop removes exactly the
entries whose age (naive subtraction) is at least the window. -/
lemma pruneLoop_eq_filter :
    ∀ (l : List Nat) (now : Nat), l.Pairwise (· ≤ ·) →
      ∀ r, pruneLoop now l = some r → r = l.filter (isFresh now) := by
  intro l
  induction l with
  | nil => intro now _ r hr; simp [pruneLoop] at hr
  | cons h rest ih =>
      intro now hp r hr
      by_cases hh : (now : Int) - (h : Int) < windowMs
      · simp only [pruneLoop, if_pos hh, Option.some.injEq] at hr
        subst hr
        rw [List.filter_cons_of_pos (by simpa [isFresh] using hh)]
        congr 1
        refine (List.filter_eq_self.mpr ?_).symm
        intro t ht
        have h1 : h ≤ t := (List.pairwise_cons.mp hp).1 t ht
        have h2 : (h : Int) ≤ (t : Int) := by exact_mod_cast h1
        simp only [isFresh, decide_eq_true_eq]
        omega
      · simp only [pruneLoop, if_neg hh] at hr
        rw [List.filter_cons_of_neg (by simpa [isFresh] using hh)]
        exact ih now (List.pairwise_cons.mp hp).2 r hr

/-- A valid message on a known channel runs the full update path: the state
dict gets the parsed value, the window is appended and pruned (successfully,
and nonempty), and no exception is raised. -/
lemma mqtt_callback_valid (topic msg : String) (now : Nat) (s : PState) (v : Int)
    (ht : topicStartsWith topic mqtt_topic_base = true)
    (hc : topicDrop topic mqtt_topic_base.length ∈ channels)
    (hp : pyInt? (pyStrip msg) = some v) :
    ∃ w, pruneLoop now (dequeAppend s.motiontimes now) = some w ∧ w ≠ [] ∧
      mqtt_message_callback topic msg now s =
        ({ state := dictSet s.state "motion" v, motiontimes := w, np := s.np }, none) := by
  have hch : topicDrop topic mqtt_topic_base.length = "motion" := by
    simpa [channels] using hc
  obtain ⟨l, hl⟩ := dequeAppend_shape s.motiontimes now
  obtain ⟨w, hw, hwne⟩ :=
    pruneLoop_append_some l now now (by simp [windowMs])
  refine ⟨w, by rw [hl]; exact hw, hwne, ?_⟩
  simp only [mqtt_message_callback, ht, if_true, hch, hp]
  rw [if_pos (by simp [channels])]
  rw [hl, hw]

/-! ### Claims -/

/-- C1: for every sequence of dispatched messages with a prefix-matching
topic, a known channel, and a valid integer payload, after dispatch the
channel state value equals the integer parsed from the most recently
dispatched payload (the only known channel is "motion"), and no exception
is raised. -/
theorem C1_last_write_wins :
    ∀ (msgs : List (String × String × Nat)) (s : PState),
      (∀ m ∈ msgs, validKnown m) → ∀ (hne : msgs ≠ []),
        (dispatchAll msgs s).2 = none ∧
          dictGet (dispatchAll msgs s).1.state "motion" =
            pyInt? (pyStrip (msgs.getLast hne).2.1) := by
  intro msgs
  induction msgs with
  | nil => intro s _ hne; exact absurd rfl hne
  | cons m rest ih =>
      intro s hv hne
      obtain ⟨ht, hc, hp⟩ := hv m (List.mem_cons_self m rest)
      obtain ⟨v, hpv⟩ := Option.isSome_iff_exists.mp hp
      obtain ⟨w, hw, hwne, heq⟩ := mqtt_callback_valid m.1 m.2.1 m.2.2 s v ht hc hpv
      have hd : dispatchAll (m :: rest) s =
          dispatchAll rest
            { state := dictSet s.state "motion" v, motiontimes := w, np := s.np } := by
        rw [dispatchAll, heq]
      cases rest with
      | nil =>
          rw [hd]
          refine ⟨rfl, ?_⟩
          show dictGet (dictSet s.state "motion" v) "motion" = _
          rw [dictGet_dictSet_self]
          exact hpv.symm
      | cons m₂ rest₂ =>
          rw [hd, List.getLast_cons_cons]
          exact ih _ (fun m' hm' => hv m' (List.mem_cons_of_mem m hm')) (by simp)

/-- Witness for C1 at a concrete two-message sequence. -/
theorem C1_witness :
    (dispatchAll [("dinky/motion", "1", 0), ("dinky/motion", "0", 10)] pstate0).2 = none ∧
      dictGet (dispatchAll [("dinky/motion", "1", 0),
        ("dinky/motion", "0", 10)] pstate0).1.state "motion" = some 0 := by
  have h := C1_last_write_wins [("dinky/motion", "1", 0), ("dinky/motion", "0", 10)]
    pstate0 (by decide) (by decide)
  exact ⟨h.1, by rw [h.2]; decide⟩

/-- C2: rendering fully overwrites all 90 pixels — every pixel becomes
(255,0,0,0) when the motion value is 1 and (0,255,0,0) otherwise — and the
buffer is committed exactly once. -/
theorem C2_render_full_overwrite (state : List (String × Int)) (np : NeoPixel) (m : Int)
    (hm : dictGet state "motion" = some m) (hlen : np.buf.length = number_of_leds) :
    update_leds state np =
      some { buf := List.replicate number_of_leds
               (if m = 1 then (⟨255, 0, 0, 0⟩ : Pixel) else ⟨0, 255, 0, 0⟩),
             written := np.written ++
               [List.replicate number_of_leds
                 (if m = 1 then (⟨255, 0, 0, 0⟩ : Pixel) else ⟨0, 255, 0, 0⟩)] } := by
  simp only [update_leds, hm]
  have hf := foldl_set_range (pixelFor m) number_of_leds np.buf
  rw [hlen, Nat.min_self, List.drop_eq_nil_of_le (le_of_eq hlen), List.append_nil] at hf
  rw [hf]
  simp only [pixelFor]

/-- Witness for C2 at the initial program state. -/
theorem C2_witness :
    update_leds state0 np0 =
      some { buf := List.replicate number_of_leds
               (if (0 : Int) = 1 then (⟨255, 0, 0, 0⟩ : Pixel) else ⟨0, 255, 0, 0⟩),
             written := np0.written ++
               [List.replicate number_of_leds
                 (if (0 : Int) = 1 then (⟨255, 0, 0, 0⟩ : Pixel) else ⟨0, 255, 0, 0⟩)] } :=
  C2_render_full_overwrite state0 np0 0 (by decide) (by decide)

/-- C3 counterexample: a recording sequence in which the tick counter wraps.
After the final record-then-prune pair (at tick 70000) the retained event
with timestamp 5 has age 70000 − 5 = 69995 ms ≥ 60000 ms, and no capacity
eviction happened (only three events were ever recorded, capacity is 60),
so the retention invariant fails as stated. -/
theorem C3_counterexample :
    recordAll [2 ^ 30 - 1, 5, 70000] [] = some [2 ^ 30 - 1, 5, 70000] ∧
      (5 : Nat) ∈ [2 ^ 30 - 1, 5, 70000] ∧
      ¬(((70000 : Nat) : Int) - ((5 : Nat) : Int) < windowMs) ∧
      [2 ^ 30 - 1, 5, 70000].length < windowCapacity := by
  refine ⟨by decide, by decide, by decide, by decide⟩

/-- C3 (amended): immediately after a record-then-prune pair on a window
whose timestamps are in non-decreasing order and not later than the new
tick (that is, the tick counter did not wrap between any retained entry
and now), every retained event has age strictly below 60000 ms. -/
theorem C3_window_age_invariant (w : List Nat) (now : Nat)
    (hsort : w.Pairwise (· ≤ ·)) (hle : ∀ t ∈ w, t ≤ now) (r : List Nat)
    (hr : recordPrune now w = some r) :
    ∀ t ∈ r, (now : Int) - (t : Int) < windowMs := by
  refine pruneLoop_fresh_of_sorted (dequeAppend w now) now ?_ r hr
  unfold dequeAppend
  split
  · refine List.pairwise_append.mpr
      ⟨hsort.sublist (List.tail_sublist w), List.pairwise_singleton _ _, ?_⟩
    intro x hx y hy
    rw [List.mem_singleton] at hy
    subst hy
    exact hle x (List.mem_of_mem_tail hx)
  · refine List.pairwise_append.mpr
      ⟨hsort, List.pairwise_singleton _ _, ?_⟩
    intro x hx y hy
    rw [List.mem_singleton] at hy
    subst hy
    exact hle x hx

/-- Witness for C3 at a concrete record-then-prune pair. -/
theorem C3_witness : ((1 : Nat) : Int) - ((0 : Nat) : Int) < windowMs :=
  C3_window_age_invariant [0] 1 (by decide) (by decide) [0, 1] (by decide) 0 (by decide)

/-- C4 counterexample: a malformed payload on the known channel raises
`ValueError`; the main-loop iteration, which has no handler, ends with that
exception and never reaches the render-and-commit step (the commit log of
the device is still empty), contradicting the claim that the error never
aborts the Main Loop. -/
theorem C4_counterexample :
    (mainLoopIter (some ("dinky/motion", "not-a-number", 0)) pstate0).2 =
        some PyError.valueError ∧
      (mainLoopIter (some ("dinky/motion", "not-a-number", 0)) pstate0).1.np.written = [] := by
  refine ⟨by decide, by decide⟩

/-- C4 (amended): a prefix-matching message on a known channel whose payload
is not a valid integer leaves the channel state and the event window
unchanged and signals `ValueError`, but the error is not contained: it
propagates out of the dispatcher invocation and aborts the main-loop
iteration before rendering. -/
theorem C4_parse_error_aborts_loop (topic msg : String) (now : Nat) (s : PState)
    (ht : topicStartsWith topic mqtt_topic_base = true)
    (hc : topicDrop topic mqtt_topic_base.length ∈ channels)
    (hp : pyInt? (pyStrip msg) = none) :
    mqtt_message_callback topic msg now s = (s, some PyError.valueError) ∧
      mainLoopIter (some (topic, msg, now)) s = (s, some PyError.valueError) := by
  have h1 : mqtt_message_callback topic msg now s = (s, some PyError.valueError) := by
    simp [mqtt_message_callback, ht, hp]
  exact ⟨h1, by simp [mainLoopIter, h1]⟩

/-- Witness for C4 at a concrete malformed message. -/
theorem C4_witness :
    mqtt_message_callback "dinky/motion" "not-a-number" 0 pstate0 =
        (pstate0, some PyError.valueError) ∧
      mainLoopIter (some ("dinky/motion", "not-a-number", 0)) pstate0 =
        (pstate0, some PyError.valueError) :=
  C4_parse_error_aborts_loop "dinky/motion" "not-a-number" 0 pstate0
    (by decide) (by decide) (by decide)

/-- C5 counterexample: a prefix-matching message for an unknown channel with
a non-integer payload is not ignored silently — the diagnostic
`print("msg: ", int(msg))` on line 51 parses the payload before the
channel-membership check and raises `ValueError`. -/
theorem C5_counterexample :
    topicStartsWith "dinky/bogus" mqtt_topic_base = true ∧
      topicDrop "dinky/bogus" mqtt_topic_base.length ∉ channels ∧
      mqtt_message_callback "dinky/bogus" "abc" 0 pstate0 =
        (pstate0, some PyError.valueError) := by
  refine ⟨by decide, by decide, by decide⟩

/-- C5 (amended): a prefix-matching message whose stripped channel name is
unknown is ignored silently — no state change and no error — provided the
payload is a valid integer string; a non-integer payload instead raises
`ValueError` at the diagnostic print that precedes the channel check. -/
theorem C5_unknown_channel_ignored (topic msg : String) (now : Nat) (s : PState)
    (ht : topicStartsWith topic mqtt_topic_base = true)
    (hc : topicDrop topic mqtt_topic_base.length ∉ channels)
    (hp : (pyInt? (pyStrip msg)).isSome = true) :
    mqtt_message_callback topic msg now s = (s, none) := by
  obtain ⟨v, hpv⟩ := Option.isSome_iff_exists.mp hp
  simp [mqtt_message_callback, ht, hpv, hc]

/-- Witness for C5 at a concrete unknown-channel message. -/
theorem C5_witness :
    mqtt_message_callback "dinky/bogus" "7" 0 pstate0 = (pstate0, none) :=
  C5_unknown_channel_ignored "dinky/bogus" "7" 0 pstate0
    (by decide) (by decide) (by decide)

/-- C6 counterexample: the prune step uses the naive Python subtraction
`now - entry`, not wrapping arithmetic. With the entry recorded just before
the 2^30 tick wrap and now = 60000 after the wrap, the wrapped age of the
entry is 60001 ms ≥ 60000 ms, so a wraparound-correct prune would remove it,
but the naive difference is hugely negative, so the code keeps it. -/
theorem C6_counterexample :
    pruneLoop 60000 [2 ^ 30 - 1] = some [2 ^ 30 - 1] ∧
      ticks_diff 60000 (2 ^ 30 - 1) ≥ 60000 := by
  refine ⟨by decide, by decide⟩

/-- C6 (amended): the prune step computes ages by naive integer subtraction
`now − timestamp`; on a window whose timestamps are in non-decreasing order
(no wraparound among them) the prune loop removes exactly the entries whose
naive age is ≥ 60000 ms. -/
theorem C6_prune_exact_without_wrap (now : Nat) (l : List Nat)
    (hsort : l.Pairwise (· ≤ ·)) (r : List Nat) (hr : pruneLoop now l = some r) :
    r = l.filter (isFresh now) :=
  pruneLoop_eq_filter l now hsort r hr

/-- Witness for C6 at a concrete window with one stale and one fresh entry. -/
theorem C6_witness :
    pruneLoop 70000 [5, 65000] = some [65000] ∧
      [65000] = [5, 65000].filter (isFresh 70000) :=
  ⟨by decide,
    C6_prune_exact_without_wrap 70000 [5, 65000] (by decide) [65000] (by decide)⟩

/-- C7 counterexample: pruning an empty window is not a no-op that leaves
the window empty without error — the unguarded popleft raises IndexError
(modelled as `none`). -/
theorem C7_counterexample :
    pruneLoop 0 [] = none ∧ pruneLoop 0 [] ≠ some [] := by
  refine ⟨rfl, by decide⟩

/-- C7 (amended): pruning an empty Event Window raises IndexError (the
unguarded popleft) for every current tick value, rather than terminating
normally as a no-op. -/
theorem C7_empty_prune_raises (now : Nat) : pruneLoop now [] = none := rfl

/-- C8: recording one more event into a window already holding 60 entries
that are all within the retention period keeps the length at exactly 60 and
evicts exactly the oldest entry. -/
theorem C8_capacity_eviction (w : List Nat) (now : Nat)
    (hlen : w.length = windowCapacity)
    (hfresh : ∀ t ∈ w, (now : Int) - (t : Int) < windowMs) :
    recordPrune now w = some (w.tail ++ [now]) ∧
      (w.tail ++ [now]).length = windowCapacity := by
  have happ : dequeAppend w now = w.tail ++ [now] := by
    unfold dequeAppend
    rw [if_pos (le_of_eq hlen.symm)]
  constructor
  · unfold recordPrune
    rw [happ]
    cases htail : w.tail with
    | nil =>
        have h0 : w.length - 1 = 0 := by
          rw [← List.length_tail, htail]
          rfl
        rw [hlen] at h0
        exact absurd h0 (by decide)
    | cons h rest =>
        have hh : h ∈ w := List.mem_of_mem_tail (htail ▸ List.mem_cons_self h rest)
        have hfr := hfresh h hh
        simp [List.cons_append, pruneLoop, hfr]
  · simp [List.length_append, List.length_tail, hlen, windowCapacity]

/-- Witness for C8 at a full window of 60 fresh entries. -/
theorem C8_witness :
    recordPrune 1 (List.replicate 60 0) = some ((List.replicate 60 0).tail ++ [1]) ∧
      ((List.replicate 60 0).tail ++ [1]).length = windowCapacity :=
  C8_capacity_eviction (List.replicate 60 0) 1 (by decide) (by decide)

/-- C9: rendering is a pure, deterministic function of the channel state
alone: two program states with equal channel state dicts (and well-formed
90-pixel buffers) render identical pixel buffers, whatever their event
windows or commit histories hold. -/
theorem C9_render_pure (s₁ s₂ : PState) (hst : s₁.state = s₂.state)
    (h₁ : s₁.np.buf.length = number_of_leds) (h₂ : s₂.np.buf.length = number_of_leds) :
    Option.map NeoPixel.buf (update_leds s₁.state s₁.np) =
      Option.map NeoPixel.buf (update_leds s₂.state s₂.np) := by
  rw [hst]
  cases hm : dictGet s₂.state "motion" with
  | none => simp [update_leds, hm]
  | some m =>
      have hf₁ := foldl_set_range (pixelFor m) number_of_leds s₁.np.buf
      have hf₂ := foldl_set_range (pixelFor m) number_of_leds s₂.np.buf
      rw [h₁, Nat.min_self, List.drop_eq_nil_of_le (le_of_eq h₁), List.append_nil] at hf₁
      rw [h₂, Nat.min_self, List.drop_eq_nil_of_le (le_of_eq h₂), List.append_nil] at hf₂
      simp [update_leds, hm, hf₁, hf₂]

/-- Witness for C9: two states with different event windows render alike. -/
theorem C9_witness :
    Option.map NeoPixel.buf (update_leds pstate0.state pstate0.np) =
      Option.map NeoPixel.buf
        (update_leds ({ state := state0, motiontimes := [12345], np := np0 } : PState).state
          ({ state := state0, motiontimes := [12345], np := np0 } : PState).np) :=
  C9_render_pure pstate0 { state := state0, motiontimes := [12345], np := np0 }
    rfl (by decide) (by decide)

/-- C10: for every successful dispatch (valid payload on a known,
prefix-matching channel) the prune loop terminates without the empty-deque
popleft error — the just-appended timestamp is fresh, so the loop stops at
or before it — and the window is non-empty afterwards. -/
theorem C10_prune_terminates_after_dispatch (topic msg : String) (now : Nat) (s : PState)
    (ht : topicStartsWith topic mqtt_topic_base = true)
    (hc : topicDrop topic mqtt_topic_base.length ∈ channels)
    (hp : (pyInt? (pyStrip msg)).isSome = true) :
    (mqtt_message_callback topic msg now s).2 = none ∧
      (mqtt_message_callback topic msg now s).1.motiontimes ≠ [] := by
  obtain ⟨v, hpv⟩ := Option.isSome_iff_exists.mp hp
  obtain ⟨w, hw, hwne, heq⟩ := mqtt_callback_valid topic msg now s v ht hc hpv
  rw [heq]
  exact ⟨rfl, hwne⟩

/-- Witness for C10 at a concrete valid dispatch. -/
theorem C10_witness :
    (mqtt_message_callback "dinky/motion" "1" 0 pstate0).2 = none ∧
      (mqtt_message_callback "dinky/motion" "1" 0 pstate0).1.motiontimes ≠ [] :=
  C10_prune_terminates_after_dispatch "dinky/motion" "1" 0 pstate0
    (by decide) (by decide) (by decide)

end RgbEmotions
